import Mathlib

/-!
Verification development for the file-organizer core of `avizyt/org-cli`
(`internal/organizer/organizer.go`).

The development shallowly embeds the scan/dispatch/move pipeline:

* string and path helpers model the Go standard-library functions the
  organizer calls (`strings.ToLower`, `strings.HasPrefix`,
  `strings.TrimSuffix`, `filepath.Ext`, `filepath.Base`, `filepath.Dir`,
  `filepath.Clean`, `filepath.Join`) on `/`-separated paths;
* `moveFile` models the move executor (organizer.go lines 112-175) over an
  environment that fixes the outcome of each filesystem call it performs;
* `walkDirFunc`, `walkNode`, `walkEntries` and `organizeScan` model the scan
  phase of `OrganizeFiles` (organizer.go lines 198-239) as a fold of the
  walk callback over the visit sequence that `filepath.WalkDir` produces on
  an abstract directory tree.
-/

/-! ## Models of the Go standard-library string and path functions -/

/-- Model of `strings.ToLower` restricted to the ASCII range (the only
characters category-mapping keys and the organizer's extensions use). -/
def stringsToLower (s : String) : String :=
  String.mk (s.data.map Char.toLower)

/-- Scanning helper for `filepathExt`: walks the characters of the path from
the end (first argument is the reversed path, second accumulates the suffix
already seen in original order); stops at a path separator, and returns the
suffix from the last dot of the final element, as `filepath.Ext` does. -/
def goExt : List Char → List Char → List Char
  | [], _ => []
  | c :: cs, seen =>
    if c = '/' then []
    else if c = '.' then c :: seen
    else goExt cs (c :: seen)

/-- Model of `filepath.Ext`: the suffix beginning at the final dot in the
final slash-separated element of the path; empty if there is no dot. -/
def filepathExt (p : String) : String :=
  String.mk (goExt p.data.reverse [])

/-- Model of `filepath.Base`: strip trailing separators and return the last
element; `"."` for the empty path, `"/"` if the path is all separators. -/
def filepathBase (p : String) : String :=
  if p = "" then "."
  else
    let r := p.data.reverse.dropWhile (fun c => c == '/')
    let b := r.takeWhile (fun c => c != '/')
    if b = [] then "/" else String.mk b.reverse

/-- Split a character list on `/` (used to model `filepath.Clean`). -/
def splitOnSep : List Char → List (List Char)
  | [] => [[]]
  | c :: cs =>
    if c = '/' then [] :: splitOnSep cs
    else
      match splitOnSep cs with
      | [] => [[c]]
      | h :: t => (c :: h) :: t

/-- Component processing of `filepath.Clean` (unix rules): drop empty and
`.` components; `..` pops the previous component, is dropped at the root
when the path is rooted, and is kept when the path is relative and there is
nothing left to pop. The first list accumulates output components in
reverse. -/
def cleanComps (rooted : Bool) : List (List Char) → List (List Char) → List (List Char)
  | acc, [] => acc.reverse
  | acc, c :: cs =>
    if c = [] ∨ c = ['.'] then cleanComps rooted acc cs
    else if c = ['.', '.'] then
      match acc with
      | [] => if rooted then cleanComps rooted [] cs else cleanComps rooted [['.', '.']] cs
      | top :: rest =>
        if top = ['.', '.'] then cleanComps rooted (c :: acc) cs
        else cleanComps rooted rest cs
    else cleanComps rooted (c :: acc) cs

/-- Join cleaned components with `/`. -/
def joinComps : List (List Char) → List Char
  | [] => []
  | [c] => c
  | c :: rest => c ++ '/' :: joinComps rest

/-- Model of `filepath.Clean` for unix paths. -/
def filepathClean (p : String) : String :=
  if p = "" then "."
  else
    let rooted : Bool := decide (p.data.head? = some '/')
    let comps := cleanComps rooted [] (splitOnSep p.data)
    let joined := joinComps comps
    if rooted then String.mk ('/' :: joined)
    else if comps = [] then "." else String.mk joined

/-- Model of the two-argument `filepath.Join`: join with a separator starting
at the first non-empty element, then `Clean`; empty when both are empty. -/
def filepathJoin (a b : String) : String :=
  if a = "" then (if b = "" then "" else filepathClean b)
  else filepathClean (a ++ "/" ++ b)

/-- Model of `filepath.Dir`: everything up to and including the final
separator, `Clean`ed (`"."` when the path holds no separator). -/
def filepathDir (p : String) : String :=
  let kept := (p.data.reverse.dropWhile (fun c => c != '/')).reverse
  filepathClean (String.mk kept)

/-- Model of `strings.TrimSuffix`. -/
def stringsTrimSuffix (s suf : String) : String :=
  if suf.data.isSuffixOf s.data then
    String.mk (s.data.take (s.data.length - suf.data.length))
  else s

/-- Model of `strings.HasPrefix s pre` (argument order as in Go:
the string first, the tested leading part second). -/
def hasPre (s pre : String) : Bool :=
  pre.data.isPrefixOf s.data

/-! ## The organizer's data model (organizer.go lines 16-108) -/

/-- Model of `organizer.Config` (organizer.go lines 17-25). The category
mapping is an association list with unique keys, looked up like a Go map. -/
structure Config where
  SourceDir : String
  DestDir : String
  DryRun : Bool
  Recursive : Bool
  Workers : Int
  CategoryMappings : List (String × String)
  Quiet : Bool

/-- Model of `organizer.FileMove` (organizer.go lines 28-32). -/
structure FileMove where
  SourcePath : String
  DestPath : String
  DryRun : Bool
deriving DecidableEq, Repr

/-- Model of `organizer.ProgressUpdate` (organizer.go lines 35-38). -/
structure ProgressUpdate where
  Moved : Nat
  Errored : Nat
deriving DecidableEq, Repr

/-- Model of `organizer.DefaultCategoryMappings` (organizer.go lines 41-108),
entry for entry in source order. -/
def DefaultCategoryMappings : List (String × String) :=
  [ (".jpg", "Images"), (".jpeg", "Images"), (".png", "Images"),
    (".gif", "Images"), (".bmp", "Images"), (".tiff", "Images"),
    (".webp", "Images"), (".heic", "Images"),
    (".pdf", "Documents"), (".doc", "Documents"), (".docx", "Documents"),
    (".ppt", "Documents"), (".pptx", "Documents"), (".xls", "Documents"),
    (".xlsx", "Documents"), (".txt", "Documents"), (".rtf", "Documents"),
    (".odt", "Documents"),
    (".mp4", "Videos"), (".mov", "Videos"), (".avi", "Videos"),
    (".mkv", "Videos"), (".webm", "Videos"),
    (".mp3", "Audio"), (".wav", "Audio"), (".flac", "Audio"),
    (".aac", "Audio"),
    (".zip", "Archives"), (".rar", "Archives"), (".7z", "Archives"),
    (".tar", "Archives"), (".gz", "Archives"),
    (".exe", "Executables"), (".dmg", "Executables"), (".app", "Executables"),
    (".deb", "Executables"), (".rpm", "Executables"),
    (".go", "Code"), (".js", "Code"), (".ts", "Code"), (".py", "Code"),
    (".java", "Code"), (".c", "Code"), (".cpp", "Code"), (".h", "Code"),
    (".hpp", "Code"), (".html", "Code"), (".css", "Code"), (".json", "Code"),
    (".xml", "Code"), (".md", "Code") ]

/-! ## The move executor (organizer.go lines 112-175)

`moveFile` performs four filesystem calls whose results the code branches
on: `os.Stat(destDir)`, `os.MkdirAll(destDir, 0755)`,
`os.Stat(finalDestPath)` and `os.Rename(...)`. A `MoveEnv` fixes the result
of each, the timestamp `time.Now().Format("20060102_150405")` returns, and
whether an internal panic occurs. Every statement in the Go function that
can raise a panic is one of its print statements, and on every control path
all print statements occur before any send on the progress channel, so the
`recover` handler (lines 113-119) always fires with zero updates sent and
sends the single `{Errored: 1}` update itself. `panicAt` names the print
site (numbered in code order, 1-5) at which the panic occurs, if any. -/

/-- Result of an `os.Stat` call as the Go code discriminates it:
`err == nil`, `os.IsNotExist(err)`, or some other error. -/
inductive StatResult where
  | found
  | notFound
  | statError (msg : String)
deriving DecidableEq, Repr

/-- Environment fixing the outcome of each effectful call in `moveFile`. -/
structure MoveEnv where
  statDestDir : StatResult
  mkdirErr : Option String
  statDestPath : StatResult
  renameErr : Option String
  nowTimestamp : String
  panicAt : Option Nat
deriving DecidableEq, Repr

/-- Observable result of one `moveFile` call: the progress updates sent on
the channel, the returned error, the `os.MkdirAll` and `os.Rename` calls
issued (the filesystem mutations attempted), and the final destination path
the move targeted (`none` when execution ended before the move step). -/
structure MoveResult where
  updates : List ProgressUpdate
  retErr : Option String
  mkdirCalls : List String
  renameCalls : List (String × String)
  finalDest : Option String
deriving DecidableEq, Repr

/-- Collision-adjusted target (organizer.go lines 146-149): insert
`_<timestamp>` between the base name and the extension, in the directory of
the planned destination. -/
def collisionTarget (fm : FileMove) (timestamp : String) : String :=
  let destDir := filepathDir fm.DestPath
  let ext := filepathExt fm.DestPath
  let name := stringsTrimSuffix (filepathBase fm.DestPath) ext
  filepathJoin destDir (name ++ "_" ++ timestamp ++ ext)

/-- Final move step of `moveFile` (organizer.go lines 157-173): dry-run
simulation, or `os.Rename` to the (possibly collision-adjusted) target. -/
def moveFileFinal (env : MoveEnv) (fm : FileMove) (quiet : Bool)
    (mk : List String) (finalDestPath : String) : MoveResult :=
  if fm.DryRun then
    if quiet = false ∧ env.panicAt = some 4 then
      { updates := [ProgressUpdate.mk 0 1], retErr := none,
        mkdirCalls := mk, renameCalls := [], finalDest := none }
    else
      { updates := [ProgressUpdate.mk 1 0], retErr := none,
        mkdirCalls := mk, renameCalls := [], finalDest := some finalDestPath }
  else
    match env.renameErr with
    | some e =>
      { updates := [ProgressUpdate.mk 0 1],
        retErr := some ("failed to move '" ++ fm.SourcePath ++ "' to '"
          ++ finalDestPath ++ "': " ++ e),
        mkdirCalls := mk, renameCalls := [(fm.SourcePath, finalDestPath)],
        finalDest := some finalDestPath }
    | none =>
      if quiet = false ∧ env.panicAt = some 5 then
        { updates := [ProgressUpdate.mk 0 1], retErr := none,
          mkdirCalls := mk, renameCalls := [(fm.SourcePath, finalDestPath)],
          finalDest := none }
      else
        { updates := [ProgressUpdate.mk 1 0], retErr := none,
          mkdirCalls := mk, renameCalls := [(fm.SourcePath, finalDestPath)],
          finalDest := some finalDestPath }

/-- Collision-resolution step of `moveFile` (organizer.go lines 142-155):
stat the exact target; on hit use the timestamp-adjusted name, on a stat
error other than not-found report an errored outcome without moving. -/
def moveFileAfterDir (env : MoveEnv) (fm : FileMove) (quiet : Bool)
    (mk : List String) : MoveResult :=
  match env.statDestPath with
  | StatResult.found =>
    if env.panicAt = some 3 then
      { updates := [ProgressUpdate.mk 0 1], retErr := none,
        mkdirCalls := mk, renameCalls := [], finalDest := none }
    else
      moveFileFinal env fm quiet mk (collisionTarget fm env.nowTimestamp)
  | StatResult.notFound => moveFileFinal env fm quiet mk fm.DestPath
  | StatResult.statError e =>
    { updates := [ProgressUpdate.mk 0 1],
      retErr := some ("error checking existence of '" ++ fm.DestPath ++ "': " ++ e),
      mkdirCalls := mk, renameCalls := [], finalDest := none }

/-- Model of `moveFile` (organizer.go lines 112-175). The first step
(lines 128-140) ensures the destination directory: the `os.MkdirAll` call
happens only when `os.Stat(destDir)` reported not-found and the move is not
a dry run; any other stat result falls through without creating anything. -/
def moveFile (env : MoveEnv) (fm : FileMove) (quiet : Bool) : MoveResult :=
  let destDir := filepathDir fm.DestPath
  match env.statDestDir with
  | StatResult.notFound =>
    if fm.DryRun then
      if env.panicAt = some 1 then
        { updates := [ProgressUpdate.mk 0 1], retErr := none,
          mkdirCalls := [], renameCalls := [], finalDest := none }
      else moveFileAfterDir env fm quiet []
    else
      match env.mkdirErr with
      | some e =>
        { updates := [ProgressUpdate.mk 0 1],
          retErr := some ("failed to create destination directory '"
            ++ destDir ++ "': " ++ e),
          mkdirCalls := [destDir], renameCalls := [], finalDest := none }
      | none =>
        if env.panicAt = some 2 then
          { updates := [ProgressUpdate.mk 0 1], retErr := none,
            mkdirCalls := [destDir], renameCalls := [], finalDest := none }
        else moveFileAfterDir env fm quiet [destDir]
  | StatResult.found => moveFileAfterDir env fm quiet []
  | StatResult.statError _ => moveFileAfterDir env fm quiet []

/-- The dispatch loop (organizer.go lines 261-276) as observed through the
progress channel: each planned move is executed once by some worker, so the
stream of updates is the concatenation of each call's updates. The per-item
environment captures the filesystem state that call encounters. -/
def runMoves (quiet : Bool) : List (FileMove × MoveEnv) → List ProgressUpdate
  | [] => []
  | (fm, env) :: rest => (moveFile env fm quiet).updates ++ runMoves quiet rest

/-- Aggregated moved count over a progress stream (main's aggregator sums
the `Moved` fields). -/
def totalMoved : List ProgressUpdate → Nat
  | [] => 0
  | u :: rest => u.Moved + totalMoved rest

/-- Aggregated errored count over a progress stream. -/
def totalErrored : List ProgressUpdate → Nat
  | [] => 0
  | u :: rest => u.Errored + totalErrored rest

/-! ## The scan phase of `OrganizeFiles` (organizer.go lines 198-239)

`filepath.WalkDir` delivers a sequence of callback visits over the source
tree. A visit either carries a valid entry (`ok path isDir`) or a traversal
error (`err path msg`): the root visit carries the `os.Lstat` error when the
root itself cannot be walked, and a directory whose `ReadDir` fails is
visited a second time with the error. The organizer's callback only ever
returns `nil` or `filepath.SkipDir` (for a directory), so `WalkDir` itself
always returns `nil`. -/

/-- One callback visit delivered by `filepath.WalkDir`. -/
inductive Visit where
  | ok (path : String) (isDir : Bool)
  | err (path : String) (msg : String)

/-- The state the walk callback of `OrganizeFiles` accumulates. The first
four fields are the Go locals (`totalScanned`, `totalSkipped`,
`filesToMove`, `scanErr`); the last four are ghost instrumentation, not in
the Go code, recording what kind of visit each increment came from: they
are the quantities the specification's accounting invariant and skip count
speak about. -/
structure ScanState where
  totalScanned : Nat
  totalSkipped : Nat
  filesToMove : List FileMove
  scanErr : Option String
  dirsVisited : Nat
  erroredEntries : Nat
  visitedFiles : List String
  skippedPaths : List String
deriving DecidableEq, Repr

/-- Initial scan state: Go zero values. -/
def ScanState.init : ScanState :=
  { totalScanned := 0, totalSkipped := 0, filesToMove := [], scanErr := none,
    dirsVisited := 0, erroredEntries := 0, visitedFiles := [], skippedPaths := [] }

/-- Category resolution as the callback performs it (organizer.go lines
214-220): lowercase the extension, look it up, fall back to `"Others"`. -/
def resolveCategory (m : List (String × String)) (path : String) : String :=
  match List.lookup (stringsToLower (filepathExt path)) m with
  | some c => c
  | none => "Others"

/-- The walk callback of `OrganizeFiles` (organizer.go lines 198-239),
one visit at a time. Returns the updated state and whether the callback
returned `filepath.SkipDir`. On an error visit the assignment to `scanErr`
is unconditional, exactly as in the Go code (line 202), so a later error
replaces an earlier one. -/
def walkDirFunc (cfg : Config) (st : ScanState) (v : Visit) : ScanState × Bool :=
  match v with
  | Visit.err _path msg =>
    ({ st with totalScanned := st.totalScanned + 1,
               scanErr := some ("encountered error during scan: " ++ msg),
               erroredEntries := st.erroredEntries + 1 }, false)
  | Visit.ok path isDir =>
    if isDir then
      ({ st with totalScanned := st.totalScanned + 1,
                 dirsVisited := st.dirsVisited + 1 },
       !cfg.Recursive && (path != cfg.SourceDir))
    else
      let category := resolveCategory cfg.CategoryMappings path
      let fileName := filepathBase path
      if hasPre path cfg.DestDir then
        ({ st with totalScanned := st.totalScanned + 1,
                   totalSkipped := st.totalSkipped + 1,
                   visitedFiles := st.visitedFiles ++ [path],
                   skippedPaths := st.skippedPaths ++ [path] }, false)
      else
        let targetCategoryDir := filepathJoin cfg.DestDir category
        let targetFilePath := filepathJoin targetCategoryDir fileName
        ({ st with totalScanned := st.totalScanned + 1,
                   visitedFiles := st.visitedFiles ++ [path],
                   filesToMove := st.filesToMove
                     ++ [FileMove.mk path targetFilePath cfg.DryRun] }, false)

mutual
/-- Abstract directory tree. A `FsNode.unreadableDir` is a directory whose
`ReadDir` fails with the given message and yields no entries, so `WalkDir`
visits it once as a directory and (unless the callback skipped it) once
more with the error. -/
inductive FsNode where
  | file (name : String)
  | dir (name : String) (entries : FsList)
  | unreadableDir (name : String) (msg : String)
inductive FsList where
  | nil
  | cons (n : FsNode) (rest : FsList)
end

/-- Name of a tree node. -/
def FsNode.name : FsNode → String
  | FsNode.file n => n
  | FsNode.dir n _ => n
  | FsNode.unreadableDir n _ => n

mutual
/-- A tree node annotated with the absolute path `filepath.WalkDir` visits
it under (the walk computes each child path as `filepath.Join` of the
parent path and the entry name; `annotateNode` performs exactly that
computation ahead of the traversal). -/
inductive PathedNode where
  | file (path : String)
  | dir (path : String) (entries : PathedList)
  | unreadableDir (path : String) (msg : String)
inductive PathedList where
  | nil
  | cons (n : PathedNode) (rest : PathedList)
end

mutual
/-- Annotate a child node with its visit path `filepath.Join parent name`,
as `filepath.WalkDir` computes it (`path1 := filepath.Join(path, d1.Name())`). -/
def annotateNode (parent : String) : FsNode → PathedNode
  | FsNode.file name => PathedNode.file (filepathJoin parent name)
  | FsNode.dir name entries =>
    PathedNode.dir (filepathJoin parent name)
      (annotateList (filepathJoin parent name) entries)
  | FsNode.unreadableDir name msg =>
    PathedNode.unreadableDir (filepathJoin parent name) msg
/-- Annotate every entry of a directory with its visit path. -/
def annotateList (parent : String) : FsList → PathedList
  | FsList.nil => PathedList.nil
  | FsList.cons n rest =>
    PathedList.cons (annotateNode parent n) (annotateList parent rest)
end

/-- Annotate the root node: the root is visited under the configured source
path itself (not a joined path), and its entries under that path. -/
def annotateRoot (rootPath : String) : FsNode → PathedNode
  | FsNode.file _ => PathedNode.file rootPath
  | FsNode.dir _ entries => PathedNode.dir rootPath (annotateList rootPath entries)
  | FsNode.unreadableDir _ msg => PathedNode.unreadableDir rootPath msg

mutual
/-- Depth-first traversal of `filepath.WalkDir` specialised to a callback
that returns only `nil` or `SkipDir`: visit the entry; for a readable
directory not skipped, walk its entries in order; for an unreadable
directory not skipped, deliver the error visit. -/
def walkNode (cfg : Config) : PathedNode → ScanState → ScanState
  | PathedNode.file path, st => (walkDirFunc cfg st (Visit.ok path false)).1
  | PathedNode.dir path entries, st =>
    let r := walkDirFunc cfg st (Visit.ok path true)
    if r.2 then r.1 else walkEntries cfg entries r.1
  | PathedNode.unreadableDir path msg, st =>
    let r := walkDirFunc cfg st (Visit.ok path true)
    if r.2 then r.1 else (walkDirFunc cfg r.1 (Visit.err path msg)).1
/-- Walk a list of annotated entries in order, threading the scan state. -/
def walkEntries (cfg : Config) : PathedList → ScanState → ScanState
  | PathedList.nil, st => st
  | PathedList.cons n rest, st => walkEntries cfg rest (walkNode cfg n st)
end

/-- A source root as `filepath.WalkDir` sees it: either the root itself
cannot be walked (`os.Lstat` fails, one error visit is delivered), or it is
a tree rooted at the configured source path. -/
inductive Fs where
  | badRoot (msg : String)
  | root (n : FsNode)

/-- The scan phase: run the walk callback over the visits `WalkDir`
delivers for the given source. -/
def organizeScan (cfg : Config) (fs : Fs) : ScanState :=
  match fs with
  | Fs.badRoot msg => (walkDirFunc cfg ScanState.init (Visit.err cfg.SourceDir msg)).1
  | Fs.root n => walkNode cfg (annotateRoot cfg.SourceDir n) ScanState.init

/-- What `OrganizeFiles` hands back to its caller after the scan phase:
the three counters, the error value of its `return` statements, and the
planned moves it dispatches to the worker pool. -/
structure OrganizeResult where
  totalScanned : Nat
  totalToProcess : Nat
  totalSkipped : Nat
  scanErrReturn : Option String
  dispatched : List FileMove
deriving DecidableEq, Repr

/-- The caller-visible outcome of `OrganizeFiles` (organizer.go lines
241-282). The callback only ever returns `nil` or `SkipDir`, so
`filepath.WalkDir` always returns `nil` and the early return at line 242 is
unreachable; both remaining `return` statements (lines 251 and 282) pass a
literal `nil` as the error, so the recorded `scanErr` is never returned. -/
def OrganizeFilesScan (cfg : Config) (fs : Fs) : OrganizeResult :=
  let st := organizeScan cfg fs
  { totalScanned := st.totalScanned,
    totalToProcess := st.filesToMove.length,
    totalSkipped := st.totalSkipped,
    scanErrReturn := none,
    dispatched := st.filesToMove }

/-! ## Statement-side definitions taken from the specification's wording -/

/-- Formalisation of the spec's phrase for a path lying under the
destination root: the destination root followed by a separator leads the
path. Used to compare the spec's notion with the code's plain string
test. -/
def isUnderDest (destRoot p : String) : Bool :=
  (destRoot ++ "/").data.isPrefixOf p.data

/-- Paths of the files sitting directly in a list of annotated entries
(used to state what a non-recursive scan may plan). -/
def topLevelFilePaths : PathedList → List String
  | PathedList.nil => []
  | PathedList.cons (PathedNode.file path) rest =>
    path :: topLevelFilePaths rest
  | PathedList.cons _ rest => topLevelFilePaths rest

/-- Visit path of an annotated node. -/
def PathedNode.path : PathedNode → String
  | PathedNode.file p => p
  | PathedNode.dir p _ => p
  | PathedNode.unreadableDir p _ => p

/-- Every entry's visit path differs from the source root (rules out
degenerate names such as `"."` whose joined path collapses onto the
root). -/
def dirNamesOk (src : String) : PathedList → Bool
  | PathedList.nil => true
  | PathedList.cons n rest => (n.path != src) && dirNamesOk src rest

/-! ## Concrete scenarios used by the claims -/

/-- Configuration of the spec's recursive-versus-non-recursive example. -/
def cfgEx : Config :=
  { SourceDir := "/source", DestDir := "/dest", DryRun := false,
    Recursive := false, Workers := 2,
    CategoryMappings := DefaultCategoryMappings, Quiet := false }

/-- Same configuration with `Recursive` set. -/
def cfgExRec : Config := { cfgEx with Recursive := true }

/-- Entries of the example source tree: `a.txt` and `sub/b.txt`. -/
def entriesEx : FsList :=
  FsList.cons (FsNode.file "a.txt")
    (FsList.cons (FsNode.dir "sub" (FsList.cons (FsNode.file "b.txt") FsList.nil))
      FsList.nil)

/-- The example source tree rooted at `/source`. -/
def fsEx : Fs := Fs.root (FsNode.dir "source" entriesEx)

/-- Configuration for the sibling-path scenario: destination root
`/data/org`, source root `/data`, recursive. -/
def cfgSib : Config :=
  { SourceDir := "/data", DestDir := "/data/org", DryRun := false,
    Recursive := true, Workers := 1,
    CategoryMappings := DefaultCategoryMappings, Quiet := false }

/-- Source tree holding the (empty) destination directory `/data/org` and a
sibling directory `/data/organized-old` containing `a.txt`: the sibling
file is not under the destination root, but its path string extends the
destination root string. -/
def fsSib : Fs :=
  Fs.root (FsNode.dir "data"
    (FsList.cons (FsNode.dir "org" FsList.nil)
      (FsList.cons (FsNode.dir "organized-old"
        (FsList.cons (FsNode.file "a.txt") FsList.nil)) FsList.nil)))

/-- Configuration for the two-error scan scenario. -/
def cfgErr : Config :=
  { SourceDir := "/s", DestDir := "/d", DryRun := false,
    Recursive := true, Workers := 1,
    CategoryMappings := DefaultCategoryMappings, Quiet := false }

/-- Source tree with two unreadable subdirectories, erroring in order
`e1` then `e2`. -/
def fsErr : Fs :=
  Fs.root (FsNode.dir "s"
    (FsList.cons (FsNode.unreadableDir "d1" "e1")
      (FsList.cons (FsNode.unreadableDir "d2" "e2") FsList.nil)))

/-- Invariant tying the callback's counters to the ghost classification of
visits: the accounting identity, the characterisation of the skip test as a
string-leading-part comparison, and the facts that planned moves never
carry a skipped path and always carry a visited file path. -/
def ScanInv (cfg : Config) (st : ScanState) : Prop :=
  st.filesToMove.length + st.totalSkipped + st.dirsVisited + st.erroredEntries
      = st.totalScanned
  ∧ st.skippedPaths = st.visitedFiles.filter (fun p => hasPre p cfg.DestDir)
  ∧ st.totalSkipped = st.skippedPaths.length
  ∧ (∀ fm, fm ∈ st.filesToMove → hasPre fm.SourcePath cfg.DestDir = false)
  ∧ (∀ fm, fm ∈ st.filesToMove → fm.SourcePath ∈ st.visitedFiles)

/-! ## Theorems -/

/-- Helper: the final move step sends exactly one progress update. -/
theorem moveFileFinal_one (env : MoveEnv) (fm : FileMove) (quiet : Bool)
    (mk : List String) (fd : String) :
    (moveFileFinal env fm quiet mk fd).updates = [ProgressUpdate.mk 1 0]
    ∨ (moveFileFinal env fm quiet mk fd).updates = [ProgressUpdate.mk 0 1] := by
  by_cases hd : fm.DryRun = true
  · by_cases hq : quiet = false ∧ env.panicAt = some 4
    · right; simp [moveFileFinal, hd, hq]
    · left; simp [moveFileFinal, hd, hq]
  · rcases hr : env.renameErr with _ | e
    · by_cases hq : quiet = false ∧ env.panicAt = some 5
      · right; simp [moveFileFinal, hd, hr, hq]
      · left; simp [moveFileFinal, hd, hr, hq]
    · right; simp [moveFileFinal, hd, hr]

/-- Helper: the collision-resolution step sends exactly one progress update
on every continuation. -/
theorem moveFileAfterDir_one (env : MoveEnv) (fm : FileMove) (quiet : Bool)
    (mk : List String) :
    (moveFileAfterDir env fm quiet mk).updates = [ProgressUpdate.mk 1 0]
    ∨ (moveFileAfterDir env fm quiet mk).updates = [ProgressUpdate.mk 0 1] := by
  rcases hsp : env.statDestPath with _ | _ | e
  · by_cases hp : env.panicAt = some 3
    · right; simp [moveFileAfterDir, hsp, hp]
    · have h : moveFileAfterDir env fm quiet mk
          = moveFileFinal env fm quiet mk (collisionTarget fm env.nowTimestamp) := by
        simp [moveFileAfterDir, hsp, hp]
      rw [h]; exact moveFileFinal_one env fm quiet mk _
  · have h : moveFileAfterDir env fm quiet mk
        = moveFileFinal env fm quiet mk fm.DestPath := by
      simp [moveFileAfterDir, hsp]
    rw [h]; exact moveFileFinal_one env fm quiet mk _
  · right; simp [moveFileAfterDir, hsp]

/-- Helper: every control path of the move executor sends exactly one
progress update, either a moved or an errored one. -/
theorem moveFile_one (env : MoveEnv) (fm : FileMove) (quiet : Bool) :
    (moveFile env fm quiet).updates = [ProgressUpdate.mk 1 0]
    ∨ (moveFile env fm quiet).updates = [ProgressUpdate.mk 0 1] := by
  rcases hsd : env.statDestDir with _ | _ | e
  · have h : moveFile env fm quiet = moveFileAfterDir env fm quiet [] := by
      simp [moveFile, hsd]
    rw [h]; exact moveFileAfterDir_one env fm quiet []
  · by_cases hd : fm.DryRun = true
    · by_cases hp : env.panicAt = some 1
      · right; simp [moveFile, hsd, hd, hp]
      · have h : moveFile env fm quiet = moveFileAfterDir env fm quiet [] := by
          simp [moveFile, hsd, hd, hp]
        rw [h]; exact moveFileAfterDir_one env fm quiet []
    · rcases hmk : env.mkdirErr with _ | e
      · by_cases hp : env.panicAt = some 2
        · right; simp [moveFile, hsd, hd, hmk, hp]
        · have h : moveFile env fm quiet
              = moveFileAfterDir env fm quiet [filepathDir fm.DestPath] := by
            simp [moveFile, hsd, hd, hmk, hp]
          rw [h]; exact moveFileAfterDir_one env fm quiet _
      · right; simp [moveFile, hsd, hd, hmk]
  · have h : moveFile env fm quiet = moveFileAfterDir env fm quiet [] := by
      simp [moveFile, hsd]
    rw [h]; exact moveFileAfterDir_one env fm quiet []

/-- Helper: summing a moved count over a concatenation. -/
theorem totalMoved_append (a b : List ProgressUpdate) :
    totalMoved (a ++ b) = totalMoved a + totalMoved b := by
  induction a with
  | nil => simp [totalMoved]
  | cons u rest ih => simp [totalMoved, ih]; omega

/-- Helper: summing an errored count over a concatenation. -/
theorem totalErrored_append (a b : List ProgressUpdate) :
    totalErrored (a ++ b) = totalErrored a + totalErrored b := by
  induction a with
  | nil => simp [totalErrored]
  | cons u rest ih => simp [totalErrored, ih]; omega

/-- Helper: over a dispatch run, moved plus errored equals the number of
planned moves dispatched. -/
theorem runMoves_total (quiet : Bool) (jobs : List (FileMove × MoveEnv)) :
    totalMoved (runMoves quiet jobs) + totalErrored (runMoves quiet jobs)
      = jobs.length := by
  induction jobs with
  | nil => rfl
  | cons j rest ih =>
    obtain ⟨fm, env⟩ := j
    rw [runMoves, totalMoved_append, totalErrored_append]
    rcases moveFile_one env fm quiet with h | h <;>
      · rw [h]
        simp [totalMoved, totalErrored, List.length_cons]
        omega

/-- Claim C1: every dispatched planned move makes `moveFile` emit exactly
one move outcome, either `{moved:1}` or `{errored:1}`, on every control
path (directory-creation failure, collision-stat failure, rename failure,
dry-run simulation, successful rename, trapped panic); hence over any
dispatch run, total moved plus total errored equals the number of planned
moves dispatched. -/
theorem move_outcome_exactly_one :
    (∀ (env : MoveEnv) (fm : FileMove) (quiet : Bool),
        (moveFile env fm quiet).updates = [ProgressUpdate.mk 1 0]
        ∨ (moveFile env fm quiet).updates = [ProgressUpdate.mk 0 1])
    ∧ (∀ (quiet : Bool) (jobs : List (FileMove × MoveEnv)),
        totalMoved (runMoves quiet jobs) + totalErrored (runMoves quiet jobs)
          = jobs.length) :=
  ⟨moveFile_one, runMoves_total⟩

/-- Helper: in the move step without dry-run, the rename is attempted on the
final target and the target is recorded, whether or not the rename
succeeds. -/
theorem moveFileFinal_nondry (env : MoveEnv) (fm : FileMove) (quiet : Bool)
    (mk : List String) (fd : String) (hd : fm.DryRun = false)
    (hp : env.panicAt = none) :
    (moveFileFinal env fm quiet mk fd).renameCalls = [(fm.SourcePath, fd)]
    ∧ (moveFileFinal env fm quiet mk fd).finalDest = some fd := by
  rcases hr : env.renameErr with _ | e
  · have hq : ¬(quiet = false ∧ env.panicAt = some 5) := by simp [hp]
    simp [moveFileFinal, hd, hr, hq]
  · simp [moveFileFinal, hd, hr]

/-- Helper: the dry-run move step issues no mkdir and no rename call. -/
theorem moveFileFinal_dry_no_mut (env : MoveEnv) (fm : FileMove) (quiet : Bool)
    (mk : List String) (fd : String) (hd : fm.DryRun = true) :
    (moveFileFinal env fm quiet mk fd).mkdirCalls = mk
    ∧ (moveFileFinal env fm quiet mk fd).renameCalls = [] := by
  by_cases hq : quiet = false ∧ env.panicAt = some 4 <;>
    simp [moveFileFinal, hd, hq]

/-- Helper: a panic-free dry-run move step reports a moved outcome and the
final target it would have used. -/
theorem moveFileFinal_dry_updates (env : MoveEnv) (fm : FileMove) (quiet : Bool)
    (mk : List String) (fd : String) (hd : fm.DryRun = true)
    (hp : env.panicAt = none) :
    (moveFileFinal env fm quiet mk fd).updates = [ProgressUpdate.mk 1 0]
    ∧ (moveFileFinal env fm quiet mk fd).finalDest = some fd := by
  have hq : ¬(quiet = false ∧ env.panicAt = some 4) := by simp [hp]
  simp [moveFileFinal, hd, hq]

/-- Helper: reduction of the collision step when the target exists. -/
theorem moveFileAfterDir_found (env : MoveEnv) (fm : FileMove) (quiet : Bool)
    (mk : List String) (hsp : env.statDestPath = StatResult.found)
    (hp3 : ¬env.panicAt = some 3) :
    moveFileAfterDir env fm quiet mk
      = moveFileFinal env fm quiet mk (collisionTarget fm env.nowTimestamp) := by
  simp [moveFileAfterDir, hsp, hp3]

/-- Helper: reduction of the collision step when the target is absent. -/
theorem moveFileAfterDir_notFound (env : MoveEnv) (fm : FileMove) (quiet : Bool)
    (mk : List String) (hsp : env.statDestPath = StatResult.notFound) :
    moveFileAfterDir env fm quiet mk = moveFileFinal env fm quiet mk fm.DestPath := by
  simp [moveFileAfterDir, hsp]

/-- Helper: a collision-check stat error yields an errored outcome with no
rename attempted. -/
theorem moveFileAfterDir_statError (env : MoveEnv) (fm : FileMove) (quiet : Bool)
    (mk : List String) (e : String)
    (hsp : env.statDestPath = StatResult.statError e) :
    (moveFileAfterDir env fm quiet mk).updates = [ProgressUpdate.mk 0 1]
    ∧ (moveFileAfterDir env fm quiet mk).renameCalls = []
    ∧ (moveFileAfterDir env fm quiet mk).mkdirCalls = mk := by
  simp [moveFileAfterDir, hsp]

/-- Helper: a dry-run collision step issues no mkdir and no rename call,
panic or not. -/
theorem moveFileAfterDir_dry_no_mut (env : MoveEnv) (fm : FileMove) (quiet : Bool)
    (mk : List String) (hd : fm.DryRun = true) :
    (moveFileAfterDir env fm quiet mk).mkdirCalls = mk
    ∧ (moveFileAfterDir env fm quiet mk).renameCalls = [] := by
  rcases hsp : env.statDestPath with _ | _ | e
  · by_cases hp : env.panicAt = some 3
    · simp [moveFileAfterDir, hsp, hp]
    · rw [moveFileAfterDir_found env fm quiet mk hsp hp]
      exact moveFileFinal_dry_no_mut env fm quiet mk _ hd
  · rw [moveFileAfterDir_notFound env fm quiet mk hsp]
    exact moveFileFinal_dry_no_mut env fm quiet mk _ hd
  · simp [moveFileAfterDir, hsp]

/-- Helper: a dry-run `moveFile` issues no mkdir and no rename call, on
every path including trapped panics. -/
theorem moveFile_dry_no_mut (env : MoveEnv) (fm : FileMove) (quiet : Bool)
    (hd : fm.DryRun = true) :
    (moveFile env fm quiet).mkdirCalls = []
    ∧ (moveFile env fm quiet).renameCalls = [] := by
  rcases hsd : env.statDestDir with _ | _ | e
  · have h : moveFile env fm quiet = moveFileAfterDir env fm quiet [] := by
      simp [moveFile, hsd]
    rw [h]; exact moveFileAfterDir_dry_no_mut env fm quiet [] hd
  · by_cases hp : env.panicAt = some 1
    · simp [moveFile, hsd, hd, hp]
    · have h : moveFile env fm quiet = moveFileAfterDir env fm quiet [] := by
        simp [moveFile, hsd, hd, hp]
      rw [h]; exact moveFileAfterDir_dry_no_mut env fm quiet [] hd
  · have h : moveFile env fm quiet = moveFileAfterDir env fm quiet [] := by
      simp [moveFile, hsd]
    rw [h]; exact moveFileAfterDir_dry_no_mut env fm quiet [] hd

/-- Helper: a panic-free dry-run `moveFile` reduces to the collision step
with no directory created. -/
theorem moveFile_dry_step (env : MoveEnv) (fm : FileMove) (quiet : Bool)
    (hd : fm.DryRun = true) (hp : env.panicAt = none) :
    moveFile env fm quiet = moveFileAfterDir env fm quiet [] := by
  rcases hsd : env.statDestDir with _ | _ | e
  · simp [moveFile, hsd]
  · have h1 : ¬(env.panicAt = some 1) := by simp [hp]
    simp [moveFile, hsd, hd, h1]
  · simp [moveFile, hsd]

/-- Helper: a panic-free non-dry `moveFile` whose directory step does not
fail reduces to the collision step (with or without a created directory). -/
theorem moveFile_nondry_step (env : MoveEnv) (fm : FileMove) (quiet : Bool)
    (hd : fm.DryRun = false) (hp : env.panicAt = none)
    (hmk : env.statDestDir = StatResult.notFound → env.mkdirErr = none) :
    moveFile env fm quiet = moveFileAfterDir env fm quiet []
    ∨ moveFile env fm quiet = moveFileAfterDir env fm quiet [filepathDir fm.DestPath] := by
  rcases hsd : env.statDestDir with _ | _ | e
  · left; simp [moveFile, hsd]
  · right
    have hmke := hmk hsd
    have h2 : ¬(env.panicAt = some 2) := by simp [hp]
    simp [moveFile, hsd, hd, hmke, h2]
  · left; simp [moveFile, hsd]

/-- Helper: behaviour of the collision step in a non-dry, panic-free run,
for each stat result of the exact target path. -/
theorem moveFileAfterDir_spec (env : MoveEnv) (fm : FileMove) (quiet : Bool)
    (mk : List String) (hp : env.panicAt = none) (hd : fm.DryRun = false) :
    (env.statDestPath = StatResult.found →
      (moveFileAfterDir env fm quiet mk).finalDest
          = some (collisionTarget fm env.nowTimestamp)
      ∧ (moveFileAfterDir env fm quiet mk).renameCalls
          = [(fm.SourcePath, collisionTarget fm env.nowTimestamp)])
    ∧ (env.statDestPath = StatResult.notFound →
      (moveFileAfterDir env fm quiet mk).finalDest = some fm.DestPath
      ∧ (moveFileAfterDir env fm quiet mk).renameCalls
          = [(fm.SourcePath, fm.DestPath)])
    ∧ (∀ e, env.statDestPath = StatResult.statError e →
      (moveFileAfterDir env fm quiet mk).updates = [ProgressUpdate.mk 0 1]
      ∧ (moveFileAfterDir env fm quiet mk).renameCalls = []) := by
  refine ⟨?_, ?_, ?_⟩
  · intro hsp
    rw [moveFileAfterDir_found env fm quiet mk hsp (by simp [hp])]
    have h := moveFileFinal_nondry env fm quiet mk
      (collisionTarget fm env.nowTimestamp) hd hp
    exact ⟨h.2, h.1⟩
  · intro hsp
    rw [moveFileAfterDir_notFound env fm quiet mk hsp]
    have h := moveFileFinal_nondry env fm quiet mk fm.DestPath hd hp
    exact ⟨h.2, h.1⟩
  · intro e hsp
    have h := moveFileAfterDir_statError env fm quiet mk e hsp
    exact ⟨h.1, h.2.1⟩

/-- Claim C8: for a planned move with the dry-run flag set, execution
performs no filesystem mutation at all — no mkdir and no rename call —
while the collision-check logic still runs (the would-be final target is
computed from the collision stat), and a successful simulation emits the
moved outcome. -/
theorem dry_run_no_mutation (env : MoveEnv) (fm : FileMove) (quiet : Bool)
    (h : fm.DryRun = true) :
    (moveFile env fm quiet).mkdirCalls = []
    ∧ (moveFile env fm quiet).renameCalls = []
    ∧ (env.panicAt = none →
        ((∀ e, env.statDestPath ≠ StatResult.statError e) →
          (moveFile env fm quiet).updates = [ProgressUpdate.mk 1 0])
        ∧ (env.statDestPath = StatResult.found →
          (moveFile env fm quiet).finalDest
            = some (collisionTarget fm env.nowTimestamp))) := by
  obtain ⟨h1, h2⟩ := moveFile_dry_no_mut env fm quiet h
  refine ⟨h1, h2, ?_⟩
  intro hp
  rw [moveFile_dry_step env fm quiet h hp]
  constructor
  · intro hne
    rcases hsp : env.statDestPath with _ | _ | e
    · rw [moveFileAfterDir_found env fm quiet [] hsp (by simp [hp])]
      exact (moveFileFinal_dry_updates env fm quiet [] _ h hp).1
    · rw [moveFileAfterDir_notFound env fm quiet [] hsp]
      exact (moveFileFinal_dry_updates env fm quiet [] _ h hp).1
    · exact absurd hsp (hne e)
  · intro hsp
    rw [moveFileAfterDir_found env fm quiet [] hsp (by simp [hp])]
    exact (moveFileFinal_dry_updates env fm quiet [] _ h hp).2

/-- Witness for claim C8 at a concrete dry-run move whose exact target
already exists: no mkdir, no rename, a moved outcome. -/
theorem dry_run_no_mutation_witness :
    (moveFile (MoveEnv.mk StatResult.notFound none StatResult.found none
        "20240105_093012" none)
      (FileMove.mk "/s/report.pdf" "/dest/Documents/report.pdf" true)
      false).mkdirCalls = []
    ∧ (moveFile (MoveEnv.mk StatResult.notFound none StatResult.found none
        "20240105_093012" none)
      (FileMove.mk "/s/report.pdf" "/dest/Documents/report.pdf" true)
      false).renameCalls = []
    ∧ (moveFile (MoveEnv.mk StatResult.notFound none StatResult.found none
        "20240105_093012" none)
      (FileMove.mk "/s/report.pdf" "/dest/Documents/report.pdf" true)
      false).updates = [ProgressUpdate.mk 1 0] := by
  have h := dry_run_no_mutation
    (MoveEnv.mk StatResult.notFound none StatResult.found none "20240105_093012" none)
    (FileMove.mk "/s/report.pdf" "/dest/Documents/report.pdf" true) false rfl
  exact ⟨h.1, h.2.1, (h.2.2 rfl).1 (by intro e he; exact StatResult.noConfusion he)⟩

/-- Claim C4: on a collision (the exact destination exists at execution
time) the executor renames the target by inserting `_<timestamp>` between
base name and extension inside the same category directory, and renames the
source to that adjusted path only; when the destination is absent the
unchanged path is used; a stat error other than not-found yields an errored
outcome with no rename attempted. -/
theorem collision_timestamp_rename (env : MoveEnv) (fm : FileMove) (quiet : Bool)
    (hp : env.panicAt = none) (hd : fm.DryRun = false)
    (hmk : env.statDestDir = StatResult.notFound → env.mkdirErr = none) :
    (env.statDestPath = StatResult.found →
      (moveFile env fm quiet).finalDest
          = some (collisionTarget fm env.nowTimestamp)
      ∧ (moveFile env fm quiet).renameCalls
          = [(fm.SourcePath, collisionTarget fm env.nowTimestamp)])
    ∧ (env.statDestPath = StatResult.notFound →
      (moveFile env fm quiet).finalDest = some fm.DestPath
      ∧ (moveFile env fm quiet).renameCalls = [(fm.SourcePath, fm.DestPath)])
    ∧ (∀ e, env.statDestPath = StatResult.statError e →
      (moveFile env fm quiet).updates = [ProgressUpdate.mk 0 1]
      ∧ (moveFile env fm quiet).renameCalls = []) := by
  rcases moveFile_nondry_step env fm quiet hd hp hmk with h | h <;>
    · rw [h]
      exact moveFileAfterDir_spec env fm quiet _ hp hd

/-- Witness for claim C4 at the specification's own example: a second
`report.pdf` moved into `Documents` while one is already there is renamed
to `report_20240105_093012.pdf` in the same directory, and the adjusted
name differs from the pre-existing one. -/
theorem collision_timestamp_rename_witness :
    (moveFile (MoveEnv.mk StatResult.found none StatResult.found none
        "20240105_093012" none)
      (FileMove.mk "/src/report.pdf" "/dest/Documents/report.pdf" false)
      false).renameCalls
      = [("/src/report.pdf", "/dest/Documents/report_20240105_093012.pdf")]
    ∧ ("/dest/Documents/report_20240105_093012.pdf" : String)
        ≠ "/dest/Documents/report.pdf" := by
  refine ⟨?_, by decide⟩
  have h := (collision_timestamp_rename
    (MoveEnv.mk StatResult.found none StatResult.found none "20240105_093012" none)
    (FileMove.mk "/src/report.pdf" "/dest/Documents/report.pdf" false) false
    rfl rfl (by decide)).1 rfl
  exact h.2.trans (by decide)

/-- Helper: one callback step preserves the scan invariant. -/
theorem walkDirFunc_inv (cfg : Config) (st : ScanState) (v : Visit)
    (h : ScanInv cfg st) : ScanInv cfg (walkDirFunc cfg st v).1 := by
  obtain ⟨h1, h2, h3, h4, h5⟩ := h
  cases v with
  | err path msg =>
    refine ⟨?_, h2, h3, h4, h5⟩
    show st.filesToMove.length + st.totalSkipped + st.dirsVisited
        + (st.erroredEntries + 1) = st.totalScanned + 1
    omega
  | ok path isDir =>
    cases isDir with
    | true =>
      refine ⟨?_, h2, h3, h4, h5⟩
      show st.filesToMove.length + st.totalSkipped + (st.dirsVisited + 1)
          + st.erroredEntries = st.totalScanned + 1
      omega
    | false =>
      by_cases hp : hasPre path cfg.DestDir = true
      · have hred : (walkDirFunc cfg st (Visit.ok path false)).1
            = { st with totalScanned := st.totalScanned + 1,
                        totalSkipped := st.totalSkipped + 1,
                        visitedFiles := st.visitedFiles ++ [path],
                        skippedPaths := st.skippedPaths ++ [path] } := by
          simp [walkDirFunc, hp]
        rw [hred]
        refine ⟨?_, ?_, ?_, h4, ?_⟩
        · show st.filesToMove.length + (st.totalSkipped + 1) + st.dirsVisited
              + st.erroredEntries = st.totalScanned + 1
          omega
        · show st.skippedPaths ++ [path]
              = (st.visitedFiles ++ [path]).filter (fun p => hasPre p cfg.DestDir)
          rw [List.filter_append, h2]
          simp [hp]
        · show st.totalSkipped + 1 = (st.skippedPaths ++ [path]).length
          rw [List.length_append, h3]
          rfl
        · intro fm hm
          exact List.mem_append_left _ (h5 fm hm)
      · have hpf : hasPre path cfg.DestDir = false := by simpa using hp
        have hred : (walkDirFunc cfg st (Visit.ok path false)).1
            = { st with totalScanned := st.totalScanned + 1,
                        visitedFiles := st.visitedFiles ++ [path],
                        filesToMove := st.filesToMove
                          ++ [FileMove.mk path
                              (filepathJoin
                                (filepathJoin cfg.DestDir
                                  (resolveCategory cfg.CategoryMappings path))
                                (filepathBase path)) cfg.DryRun] } := by
          simp [walkDirFunc, hpf]
        rw [hred]
        refine ⟨?_, ?_, h3, ?_, ?_⟩
        · show (st.filesToMove ++ [_]).length + st.totalSkipped + st.dirsVisited
              + st.erroredEntries = st.totalScanned + 1
          rw [List.length_append]
          simp only [List.length_cons, List.length_nil]
          omega
        · show st.skippedPaths
              = (st.visitedFiles ++ [path]).filter (fun p => hasPre p cfg.DestDir)
          rw [List.filter_append, h2]
          simp [hpf]
        · intro fm hm
          rcases List.mem_append.mp hm with hm | hm
          · exact h4 fm hm
          · have he := List.mem_singleton.mp hm
            subst he
            exact hpf
        · intro fm hm
          rcases List.mem_append.mp hm with hm | hm
          · exact List.mem_append_left _ (h5 fm hm)
          · have he := List.mem_singleton.mp hm
            subst he
            exact List.mem_append_right _ (List.mem_singleton.mpr rfl)

mutual
/-- Helper: walking one annotated node preserves the scan invariant. -/
theorem walkNode_inv (cfg : Config) (n : PathedNode) (st : ScanState)
    (h : ScanInv cfg st) : ScanInv cfg (walkNode cfg n st) := by
  cases n with
  | file path =>
    simp only [walkNode]
    exact walkDirFunc_inv cfg st (Visit.ok path false) h
  | dir path entries =>
    simp only [walkNode]
    split
    · exact walkDirFunc_inv cfg st (Visit.ok path true) h
    · exact walkEntries_inv cfg entries _
        (walkDirFunc_inv cfg st (Visit.ok path true) h)
  | unreadableDir path msg =>
    simp only [walkNode]
    split
    · exact walkDirFunc_inv cfg st (Visit.ok path true) h
    · exact walkDirFunc_inv cfg _ (Visit.err path msg)
        (walkDirFunc_inv cfg st (Visit.ok path true) h)
/-- Helper: walking a list of annotated entries preserves the scan
invariant. -/
theorem walkEntries_inv (cfg : Config) (ns : PathedList) (st : ScanState)
    (h : ScanInv cfg st) : ScanInv cfg (walkEntries cfg ns st) := by
  cases ns with
  | nil => simpa only [walkEntries] using h
  | cons n rest =>
    simp only [walkEntries]
    exact walkEntries_inv cfg rest _ (walkNode_inv cfg n _ h)
end

/-- Helper: the initial scan state satisfies the invariant. -/
theorem scanInv_init (cfg : Config) : ScanInv cfg ScanState.init := by
  refine ⟨rfl, rfl, rfl, ?_, ?_⟩ <;> intro fm hm <;> exact absurd hm (List.not_mem_nil fm)

/-- Helper: every completed scan satisfies the invariant. -/
theorem organizeScan_inv (cfg : Config) (fs : Fs) : ScanInv cfg (organizeScan cfg fs) := by
  cases fs with
  | badRoot msg =>
    exact walkDirFunc_inv cfg ScanState.init (Visit.err cfg.SourceDir msg) (scanInv_init cfg)
  | root n =>
    exact walkNode_inv cfg (annotateRoot cfg.SourceDir n) ScanState.init (scanInv_init cfg)

/-- Claim C9: for every completed scan, planned moves plus skipped files
plus directories visited plus errored entries equals the total number of
entries the walk touched. -/
theorem scan_accounting (cfg : Config) (fs : Fs) :
    (organizeScan cfg fs).filesToMove.length + (organizeScan cfg fs).totalSkipped
      + (organizeScan cfg fs).dirsVisited + (organizeScan cfg fs).erroredEntries
      = (organizeScan cfg fs).totalScanned :=
  (organizeScan_inv cfg fs).1

/-- Helper: a leading-part test for a longer leading part implies the test
for its first segment. -/
theorem isPrefixOf_extend (a b c : List Char)
    (h : (a ++ b).isPrefixOf c = true) : a.isPrefixOf c = true := by
  induction a generalizing c with
  | nil => cases c <;> rfl
  | cons x xs ih =>
    cases c with
    | nil => simp [List.isPrefixOf] at h
    | cons y ys =>
      simp only [List.cons_append, List.isPrefixOf, Bool.and_eq_true] at h ⊢
      exact ⟨h.1, ih ys h.2⟩

/-- Helper: a path genuinely under the destination root also passes the
code's plain string test `strings.HasPrefix path destRoot`. -/
theorem isUnderDest_imp_hasPre (d p : String) (h : isUnderDest d p = true) :
    hasPre p d = true := by
  unfold isUnderDest at h
  rw [String.data_append] at h
  exact isPrefixOf_extend d.data ("/" : String).data p.data h

/-- Claim C6 (amended): a file whose path lies under the destination root is
never planned, and `totalSkipped` equals the number of visited files whose
path string begins with the configured destination-root string — which can
exceed the number of files genuinely under the destination root, since a
sibling path extending the destination-root string is also skipped and
counted. -/
theorem under_dest_never_planned (cfg : Config) (fs : Fs) :
    ((organizeScan cfg fs).filesToMove.all
        (fun fm => !(isUnderDest cfg.DestDir fm.SourcePath))) = true
    ∧ ((organizeScan cfg fs).filesToMove.all
        (fun fm => !(hasPre fm.SourcePath cfg.DestDir))) = true
    ∧ (organizeScan cfg fs).totalSkipped
        = ((organizeScan cfg fs).visitedFiles.filter
            (fun p => hasPre p cfg.DestDir)).length := by
  obtain ⟨_h1, h2, h3, h4, _h5⟩ := organizeScan_inv cfg fs
  refine ⟨?_, ?_, ?_⟩
  · rw [List.all_eq_true]
    intro fm hm
    have hf := h4 fm hm
    by_cases hu : isUnderDest cfg.DestDir fm.SourcePath = true
    · exact absurd (isUnderDest_imp_hasPre cfg.DestDir fm.SourcePath hu)
        (by simp [hf])
    · simp at hu
      simp [hu]
  · rw [List.all_eq_true]
    intro fm hm
    simp [h4 fm hm]
  · rw [h3, h2]

/-- Counterexample to claim C6 as stated: with destination root `/data/org`
inside source root `/data`, the sibling file `/data/organized-old/a.txt` is
not under the destination root, yet it is skipped and counted, so
`totalSkipped` (1) differs from the number of visited files under the
destination root (0). -/
theorem under_dest_skip_counterexample :
    (organizeScan cfgSib fsSib).totalSkipped = 1
    ∧ ((organizeScan cfgSib fsSib).visitedFiles.filter
        (fun p => isUnderDest "/data/org" p)).length = 0
    ∧ (organizeScan cfgSib fsSib).visitedFiles = ["/data/organized-old/a.txt"]
    ∧ isUnderDest "/data/org" "/data/organized-old/a.txt" = false := by
  exact ⟨by decide, by decide, by decide, by decide⟩

/-- Claim C10: the already-in-destination test is a plain string comparison
of the visit path against the configured destination-root string — the
skipped files of any scan are exactly the visited files passing
`strings.HasPrefix path destDir` — and it therefore also skips and counts
files in a sibling directory whose name extends the destination-root
string, as the concrete `/data/org` versus `/data/organized-old` scan
shows. -/
theorem destination_skip_is_string_comparison :
    (∀ (cfg : Config) (fs : Fs),
        (organizeScan cfg fs).skippedPaths
          = (organizeScan cfg fs).visitedFiles.filter
              (fun p => hasPre p cfg.DestDir))
    ∧ (organizeScan cfgSib fsSib).skippedPaths = ["/data/organized-old/a.txt"]
    ∧ isUnderDest "/data/org" "/data/organized-old/a.txt" = false
    ∧ hasPre "/data/organized-old/a.txt" "/data/org" = true
    ∧ (organizeScan cfgSib fsSib).filesToMove = [] := by
  exact ⟨fun cfg fs => (organizeScan_inv cfg fs).2.1,
    by decide, by decide, by decide, by decide⟩

/-- Helper: a file visit appends exactly its path to the visited-files
list, whether the file is skipped or planned. -/
theorem walkDirFunc_file_visited (cfg : Config) (st : ScanState) (path : String) :
    ((walkDirFunc cfg st (Visit.ok path false)).1).visitedFiles
      = st.visitedFiles ++ [path] := by
  by_cases hp : hasPre path cfg.DestDir = true <;> simp [walkDirFunc, hp]

/-- Helper: a directory visit leaves the visited-files list unchanged. -/
theorem walkDirFunc_dir_visited (cfg : Config) (st : ScanState) (path : String) :
    ((walkDirFunc cfg st (Visit.ok path true)).1).visitedFiles
      = st.visitedFiles := rfl

/-- Helper: with `recursive` off, a non-root directory is visited as a
single entry and its contents are not descended into. -/
theorem walkNode_skip_dir (cfg : Config) (path : String) (entries : PathedList)
    (st : ScanState) (hrec : cfg.Recursive = false)
    (hp : (path != cfg.SourceDir) = true) :
    walkNode cfg (PathedNode.dir path entries) st
      = (walkDirFunc cfg st (Visit.ok path true)).1 := by
  have hc : (walkDirFunc cfg st (Visit.ok path true)).2 = true := by
    simp [walkDirFunc, hrec, hp]
  simp only [walkNode, hc, if_true]

/-- Helper: with `recursive` off, a non-root unreadable directory is
skipped before its read error can surface. -/
theorem walkNode_skip_unreadable (cfg : Config) (path msg : String)
    (st : ScanState) (hrec : cfg.Recursive = false)
    (hp : (path != cfg.SourceDir) = true) :
    walkNode cfg (PathedNode.unreadableDir path msg) st
      = (walkDirFunc cfg st (Visit.ok path true)).1 := by
  have hc : (walkDirFunc cfg st (Visit.ok path true)).2 = true := by
    simp [walkDirFunc, hrec, hp]
  simp only [walkNode, hc, if_true]

/-- Helper: with `recursive` off, walking a list of entries visits exactly
the files sitting directly in it (directory entries are visited but not
descended into). -/
theorem walkEntries_nonrec (cfg : Config) (hrec : cfg.Recursive = false)
    (ns : PathedList) (st : ScanState)
    (hok : dirNamesOk cfg.SourceDir ns = true) :
    (walkEntries cfg ns st).visitedFiles
      = st.visitedFiles ++ topLevelFilePaths ns := by
  cases ns with
  | nil => simp [walkEntries, topLevelFilePaths]
  | cons n rest =>
    rw [dirNamesOk, Bool.and_eq_true] at hok
    obtain ⟨hn, hrest⟩ := hok
    cases n with
    | file path =>
      simp only [walkEntries]
      rw [walkEntries_nonrec cfg hrec rest _ hrest]
      simp only [walkNode]
      rw [walkDirFunc_file_visited]
      simp [topLevelFilePaths]
    | dir path entries =>
      simp only [walkEntries]
      rw [walkEntries_nonrec cfg hrec rest _ hrest,
        walkNode_skip_dir cfg path entries st hrec hn,
        walkDirFunc_dir_visited]
      rfl
    | unreadableDir path msg =>
      simp only [walkEntries]
      rw [walkEntries_nonrec cfg hrec rest _ hrest,
        walkNode_skip_unreadable cfg path msg st hrec hn,
        walkDirFunc_dir_visited]
      rfl

/-- Claim C7: with `recursive` off, every directory other than the source
root is visited as a single entry and not descended into, so each visited
(hence each planned) file sits directly in the root; with `recursive` on,
subdirectories are descended. In particular, for `source/a.txt` and
`source/sub/b.txt`, the non-recursive scan plans exactly `a.txt` and the
recursive scan plans exactly `a.txt` and `sub/b.txt`. -/
theorem nonrecursive_single_level (cfg : Config) (rootName : String)
    (entries : FsList) (hrec : cfg.Recursive = false)
    (hok : dirNamesOk cfg.SourceDir (annotateList cfg.SourceDir entries) = true) :
    ((organizeScan cfg (Fs.root (FsNode.dir rootName entries))).visitedFiles
        = topLevelFilePaths (annotateList cfg.SourceDir entries)
      ∧ ∀ fm, fm ∈ (organizeScan cfg (Fs.root (FsNode.dir rootName entries))).filesToMove →
          fm.SourcePath ∈ topLevelFilePaths (annotateList cfg.SourceDir entries))
    ∧ (organizeScan cfgEx fsEx).filesToMove
        = [FileMove.mk "/source/a.txt" "/dest/Documents/a.txt" false]
    ∧ (organizeScan cfgExRec fsEx).filesToMove
        = [FileMove.mk "/source/a.txt" "/dest/Documents/a.txt" false,
           FileMove.mk "/source/sub/b.txt" "/dest/Documents/b.txt" false] := by
  have hnc : ¬((walkDirFunc cfg ScanState.init (Visit.ok cfg.SourceDir true)).2 = true) := by
    simp [walkDirFunc]
  have hvis : (organizeScan cfg (Fs.root (FsNode.dir rootName entries))).visitedFiles
      = topLevelFilePaths (annotateList cfg.SourceDir entries) := by
    simp only [organizeScan, annotateRoot, walkNode]
    rw [if_neg hnc]
    rw [walkEntries_nonrec cfg hrec (annotateList cfg.SourceDir entries) _ hok]
    rfl
  refine ⟨⟨hvis, ?_⟩, by decide, by decide⟩
  intro fm hm
  have h5 := (organizeScan_inv cfg (Fs.root (FsNode.dir rootName entries))).2.2.2.2 fm hm
  rwa [hvis] at h5

/-- Witness for claim C7: at the example source tree with the example
configuration, the name hypothesis holds and the non-recursive scan visits
exactly the root-level file. -/
theorem nonrecursive_single_level_witness :
    dirNamesOk "/source" (annotateList "/source" entriesEx) = true
    ∧ (organizeScan cfgEx fsEx).visitedFiles = ["/source/a.txt"] := by
  have h := nonrecursive_single_level cfgEx "source" entriesEx rfl (by decide)
  exact ⟨by decide, h.1.1.trans (by decide)⟩

/-- Claim C5: category resolution is a total function with no error path:
it depends only on the lowercased extension (so it is case-insensitive on
the extension), a mapped extension resolves to its mapped category, an
unmapped extension resolves to the fallback category `"Others"`, and an
extensionless file resolves to `"Others"` under the default mapping. -/
theorem category_resolution_total (m : List (String × String)) (p q : String) :
    (stringsToLower (filepathExt p) = stringsToLower (filepathExt q) →
      resolveCategory m p = resolveCategory m q)
    ∧ (∀ c, List.lookup (stringsToLower (filepathExt p)) m = some c →
      resolveCategory m p = c)
    ∧ (List.lookup (stringsToLower (filepathExt p)) m = none →
      resolveCategory m p = "Others")
    ∧ (filepathExt p = "" →
      resolveCategory DefaultCategoryMappings p = "Others") := by
  refine ⟨?_, ?_, ?_, ?_⟩
  · intro h
    unfold resolveCategory
    rw [h]
  · intro c h
    unfold resolveCategory
    rw [h]
  · intro h
    unfold resolveCategory
    rw [h]
  · intro h
    unfold resolveCategory
    rw [h]
    rfl

/-- Witness for claim C5: an upper-case `.JPG` resolves to `Images` and an
extensionless file name resolves to `Others` under the default mapping. -/
theorem category_resolution_total_witness :
    resolveCategory DefaultCategoryMappings "photo.JPG" = "Images"
    ∧ resolveCategory DefaultCategoryMappings "notes" = "Others" := by
  refine ⟨?_, ?_⟩
  · exact (category_resolution_total DefaultCategoryMappings "photo.JPG" "x").2.1
      "Images" (by decide)
  · exact (category_resolution_total DefaultCategoryMappings "notes" "x").2.2.2
      (by decide)

/-- Claim C2 evaluated at its failing input (the claim is right, the code
is wrong): in a recursive scan over two unreadable subdirectories erroring
as `e1` then `e2`, the recorded scan error is the wrapped `e2` — the
unconditional assignment at organizer.go line 202 lets a later error
overwrite the first, despite the adjacent comment — and `OrganizeFiles`
returns a nil error to the caller (both normal returns pass a literal
`nil`), despite its own doc comment promising the scan error. -/
theorem scan_error_overwritten_and_not_returned :
    (organizeScan cfgErr fsErr).erroredEntries = 2
    ∧ (organizeScan cfgErr fsErr).scanErr
        = some "encountered error during scan: e2"
    ∧ (organizeScan cfgErr fsErr).scanErr
        ≠ some "encountered error during scan: e1"
    ∧ (OrganizeFilesScan cfgErr fsErr).scanErrReturn = none := by
  exact ⟨by decide, by decide, by decide, rfl⟩

/-- Claim C3 evaluated at its failing input (the claim is right on the
abort behaviour but the code never propagates the failure): when the source
root itself cannot be walked, the scan visits only the root error entry,
produces no planned moves and dispatches nothing, records the wrapped root
error internally, yet `OrganizeFiles` returns a nil error — `WalkDir`
swallows the root error because the callback returns nil, so the
propagation branch at organizer.go line 242 is unreachable. -/
theorem root_walk_failure_not_propagated :
    (OrganizeFilesScan cfgErr (Fs.badRoot "lstat failed")).dispatched = []
    ∧ (OrganizeFilesScan cfgErr (Fs.badRoot "lstat failed")).totalToProcess = 0
    ∧ (OrganizeFilesScan cfgErr (Fs.badRoot "lstat failed")).totalScanned = 1
    ∧ (organizeScan cfgErr (Fs.badRoot "lstat failed")).scanErr
        = some "encountered error during scan: lstat failed"
    ∧ (OrganizeFilesScan cfgErr (Fs.badRoot "lstat failed")).scanErrReturn = none := by
  exact ⟨rfl, rfl, rfl, rfl, rfl⟩
